import Mathlib

/-!
Shallow embedding of the Helix Corp HR RAG bot core
(`src/hackathon-ai/src`): data loader cleaning, hybrid retriever
(structured employee lookup and tenure calculation), vector store
wrapper, and the RAG pipeline with its confidence heuristic.

Python floats are modelled by `ℚ`: every arithmetic operation the code
performs (integer day counts divided by 365.25, multiples of 5 summed and
clamped) is exact in double precision at the magnitudes involved, and no
comparison in scope sits within double-precision error of its threshold,
so the rational model agrees with the float semantics pointwise.
-/

namespace HelixBot

/-- A calendar date (year, month, day), modelling `datetime`/`Timestamp`
values held in the loaded tables. -/
structure Date where
  year : Int
  month : Int
  day : Int
deriving DecidableEq, Repr

/-- Day number of a civil date in the proleptic Gregorian calendar
(days since 1970-01-01), the standard civil-calendar conversion used to
model `datetime` subtraction: `(a - b).days = daysFromCivil a - daysFromCivil b`. -/
def daysFromCivil (y m d : Int) : Int :=
  let yAdj := if m ≤ 2 then y - 1 else y
  let era := (if 0 ≤ yAdj then yAdj else yAdj - 399) / 400
  let yoe := yAdj - era * 400
  let mp := if 2 < m then m - 3 else m + 9
  let doy := (153 * mp + 2) / 5 + d - 1
  let doe := yoe * 365 + yoe / 4 - yoe / 100 + doy
  era * 146097 + doe - 719468

/-- Day number of a `Date`. -/
def Date.toDays (d : Date) : Int :=
  daysFromCivil d.year d.month d.day

/-- Two-digit rendering of a month/day, used for `str(ts.date())` output. -/
def pad2 (n : Int) : String :=
  if n < 10 then "0" ++ toString n else toString n

/-- Rendering of a date as `YYYY-MM-DD`, modelling `str(joining_date.date())`. -/
def dateStr (d : Date) : String :=
  toString d.year ++ "-" ++ pad2 d.month ++ "-" ++ pad2 d.day

/-- Python `round(x, 2)` on the values produced by the tenure computation.
`round` in Lean is round-half-up while Python rounds half to even, but the
two can only differ at exact ties `x * 100 = k + 1/2`, which are impossible
for `d / 365.25 * 100 = 400 * d / 1461` with integer `d` (1461 is odd and
coprime to 400), so the model is exact on every reachable input. -/
def round2 (q : ℚ) : ℚ :=
  (round (q * 100) : ℚ) / 100

/-- Python `round(x, 1)`, same remark as `round2`; every reachable
confidence score is an integer, so rounding is the identity there. -/
def round1 (q : ℚ) : ℚ :=
  (round (q * 10) : ℚ) / 10

/-- One row of the loaded employee table (`employees_df`), with the parsed
`Joining_Date` column as an `Option Date` (`none` models `NaT`). -/
structure Employee where
  empId : String
  name : String
  dept : String
  location : String
  joinDate : Option Date
deriving DecidableEq, Repr

/-- One row of the loaded leave table (`leaves_df`): the employee id
plus the remaining leave metadata, abstracted as one payload field. -/
structure LeaveRec where
  empId : String
  payload : String
deriving DecidableEq, Repr

/-- One row of the flattened attendance table (`attendance_df`). -/
structure AttRec where
  empId : String
  date : Option Date
  status : String
deriving DecidableEq, Repr

/-- A chunk stored in the vector index: text, `{source, page}` metadata and
the embedding vector computed at ingestion. -/
structure StoredDoc where
  text : String
  source : String
  page : Int
  embedding : List ℚ
deriving DecidableEq, Repr

/-- A policy chunk before ingestion, as produced by `DataLoader.load_policies`. -/
structure Chunk where
  text : String
  source : String
  page : Int
deriving DecidableEq, Repr

/-- The in-memory state of `HybridRetriever` after `_load_structured_data`,
plus the vector store contents. -/
structure RetrieverState where
  employees : List Employee
  leaves : List LeaveRec
  attendance : List AttRec
  store : List StoredDoc
deriving DecidableEq, Repr

/-- The LLM client capability set (`LLMInterface`): text generation and
embedding, modelled as pure functions. -/
structure LLMClient where
  genText : String → String
  getEmbedding : String → List ℚ

/-- The deterministic stub embedding vector of `MockLLMClient.get_embedding`:
`[0.1] * 768`. -/
def mockVec : List ℚ :=
  List.replicate 768 (1 / 10)

/-- `MockLLMClient`: echo-style generation and the constant stub embedding. -/
def mockLLMClient : LLMClient where
  genText := fun prompt => "Mock response to: " ++ (prompt.take 50) ++ "..."
  getEmbedding := fun _ => mockVec

/-- Result record of a successful `get_employee_info`: the employee row
augmented with the leave rows, the attendance count and the bounded
recent-attendance slice (`attendance.tail(5)`). -/
structure EmployeeInfo where
  emp : Employee
  leaves : List LeaveRec
  attendanceCount : Nat
  recentAttendance : List AttRec
deriving DecidableEq, Repr

/-- The last `n` elements of a list, modelling `DataFrame.tail(n)`. -/
def lastN (n : Nat) (l : List α) : List α :=
  l.drop (l.length - n)

/-- `HybridRetriever.get_employee_info`: look up the first employee row with
the given id (`df[df[...] == id]` then `iloc[0]`); absent ids yield the
structured error result; present ids are joined with their leave rows and
attendance summary.  The `employees_df is None` guard of the source is not
modelled: the state always holds loaded tables. -/
def getEmployeeInfo (st : RetrieverState) (empId : String) : Except String EmployeeInfo :=
  match st.employees.find? (fun e => e.empId == empId) with
  | none => .error ("Employee " ++ empId ++ " not found")
  | some e =>
    let lv := st.leaves.filter (fun r => r.empId == empId)
    let att := st.attendance.filter (fun r => r.empId == empId)
    .ok { emp := e, leaves := lv, attendanceCount := att.length,
          recentAttendance := lastN 5 att }

/-- Result record of a successful `calculate_tenure`.  `tenureYears` is the
rounded value placed in the returned dict; the eligibility booleans are
computed from the unrounded ratio, exactly as in the source. -/
structure TenureInfo where
  empId : String
  joiningDate : String
  tenureDays : Int
  tenureYears : ℚ
  sabbaticalEligible : Bool
  seniorBenefitsEligible : Bool
deriving DecidableEq, Repr

/-- The fixed reference date of `calculate_tenure`: `datetime(2026, 2, 5)`. -/
def referenceDate : Date := ⟨2026, 2, 5⟩

/-- `HybridRetriever.calculate_tenure`: error result for an absent employee
or a missing (`NaT`) joining date; otherwise day difference to the fixed
reference date, years via the 365.25 divisor, rounding to 2 decimals for
the reported years, and the two fixed eligibility thresholds computed from
the unrounded years. -/
def calculateTenure (st : RetrieverState) (empId : String) : Except String TenureInfo :=
  match st.employees.find? (fun e => e.empId == empId) with
  | none => .error ("Employee " ++ empId ++ " not found")
  | some e =>
    match e.joinDate with
    | none => .error "Joining date not available"
    | some jd =>
      let tenureDays : Int := referenceDate.toDays - jd.toDays
      let tenureYears : ℚ := (tenureDays : ℚ) / (365.25 : ℚ)
      .ok { empId := empId,
            joiningDate := dateStr jd,
            tenureDays := tenureDays,
            tenureYears := round2 tenureYears,
            sabbaticalEligible := decide (5 ≤ tenureYears),
            seniorBenefitsEligible := decide (3 ≤ tenureYears) }

/-- A single similarity-search hit as parsed by `VectorDB.search`:
text, the `{source, page}` metadata, and the distance score. -/
structure SearchResult where
  text : String
  source : String
  page : Int
  distance : ℚ
deriving DecidableEq, Repr

/-- Squared Euclidean distance between two embedding vectors, the default
distance of the vector index backend. -/
def sqDist (a b : List ℚ) : ℚ :=
  ((a.zip b).map (fun p => (p.1 - p.2) ^ 2)).sum

/-- Insert a hit into a list sorted by ascending distance, after every
element of equal or smaller distance (stable with respect to the original
order). -/
def insertByDist (x : SearchResult) : List SearchResult → List SearchResult
  | [] => [x]
  | y :: ys => if x.distance < y.distance then x :: y :: ys else y :: insertByDist x ys

/-- Stable sort of hits by ascending distance (insertion from the left, so
equal distances keep insertion order). -/
def sortByDist (l : List SearchResult) : List SearchResult :=
  l.foldl (fun acc x => insertByDist x acc) []

/-- `VectorDB.add_documents` with an explicit embedding client: each chunk
is embedded with `client.get_embedding` and appended to the store.  The
generated `uuid` ids are not modelled: nothing in scope reads them. -/
def addDocuments (store : List StoredDoc) (docs : List Chunk) (client : LLMClient) : List StoredDoc :=
  store ++ docs.map (fun c =>
    { text := c.text, source := c.source, page := c.page,
      embedding := client.getEmbedding c.text })

/-- `VectorDB.search` with an explicit embedding client.  Modelled from the
spec: the nearest-neighbour query itself runs in the external vector index
backend, whose contract is `k` nearest stored chunks by ascending distance
with ties broken arbitrarily; the model fixes the arbitrary tie-break to
insertion order (stable sort). -/
def search (store : List StoredDoc) (q : String) (k : Nat) (client : LLMClient) : List SearchResult :=
  let qe := client.getEmbedding q
  let scored := store.map (fun d =>
    { text := d.text, source := d.source, page := d.page,
      distance := sqDist qe d.embedding : SearchResult })
  (sortByDist scored).take k

/-- `HybridRetriever.search_policies`: delegate to the vector store with the
retriever's own llm client as embedder. -/
def searchPolicies (st : RetrieverState) (q : String) (k : Nat) (client : LLMClient) : List SearchResult :=
  search st.store q k client

/-- The code-point ranges of Unicode general category Nd (decimal digits,
Unicode 15.1), each range `(lo, hi)` inclusive: the character class that
Python's `\d` matches on `str` patterns. -/
def ndRanges : List (Nat × Nat) :=
  [(0x30, 0x39), (0x660, 0x669), (0x6F0, 0x6F9), (0x7C0, 0x7C9), (0x966, 0x96F),
   (0x9E6, 0x9EF), (0xA66, 0xA6F), (0xAE6, 0xAEF), (0xB66, 0xB6F), (0xBE6, 0xBEF),
   (0xC66, 0xC6F), (0xCE6, 0xCEF), (0xD66, 0xD6F), (0xDE6, 0xDEF), (0xE50, 0xE59),
   (0xED0, 0xED9), (0xF20, 0xF29), (0x1040, 0x1049), (0x1090, 0x1099), (0x17E0, 0x17E9),
   (0x1810, 0x1819), (0x1946, 0x194F), (0x19D0, 0x19D9), (0x1A80, 0x1A89),
   (0x1A90, 0x1A99), (0x1B50, 0x1B59), (0x1BB0, 0x1BB9), (0x1C40, 0x1C49),
   (0x1C50, 0x1C59), (0xA620, 0xA629), (0xA8D0, 0xA8D9), (0xA900, 0xA909),
   (0xA9D0, 0xA9D9), (0xA9F0, 0xA9F9), (0xAA50, 0xAA59), (0xABF0, 0xABF9),
   (0xFF10, 0xFF19), (0x104A0, 0x104A9), (0x10D30, 0x10D39), (0x11066, 0x1106F),
   (0x110F0, 0x110F9), (0x11136, 0x1113F), (0x111D0, 0x111D9), (0x112F0, 0x112F9),
   (0x11450, 0x11459), (0x114D0, 0x114D9), (0x11650, 0x11659), (0x116C0, 0x116C9),
   (0x11730, 0x11739), (0x118E0, 0x118E9), (0x11950, 0x11959), (0x11C50, 0x11C59),
   (0x11D50, 0x11D59), (0x11DA0, 0x11DA9), (0x11F50, 0x11F59), (0x16A60, 0x16A69),
   (0x16AC0, 0x16AC9), (0x16B50, 0x16B59), (0x1D7CE, 0x1D7FF), (0x1E140, 0x1E149),
   (0x1E2F0, 0x1E2F9), (0x1E4F0, 0x1E4F9), (0x1E950, 0x1E959), (0x1FBF0, 0x1FBF9)]

/-- Python's `\d` on `str` patterns: any Unicode decimal digit (category
Nd), not only the ASCII digits. -/
def isPyDigit (c : Char) : Bool :=
  ndRanges.any (fun r => r.1 ≤ c.toNat && c.toNat ≤ r.2)

/-- Leftmost case-insensitive occurrence of `EMP` followed by one or more
digits, on an already upper-cased character list: returns the (maximal)
digit run of the first position where the pattern matches, scanning left to
right, or `none`.  Models `re.search(r"(EMP\d+)", query, re.IGNORECASE)`
with `\d` as the Unicode Nd class (`isPyDigit`). -/
def findEmpAux : List Char → Option (List Char)
  | [] => none
  | a :: cs =>
    match cs with
    | b :: p :: rest =>
      if a = 'E' ∧ b = 'M' ∧ p = 'P' then
        let ds := rest.takeWhile isPyDigit
        if ds.isEmpty then findEmpAux cs else some ds
      else findEmpAux cs
    | _ => findEmpAux cs

/-- `match.group(1).upper()` of the pipeline: the matched employee token,
upper-cased. Case-insensitive matching of the letters is modelled by
scanning the upper-cased query: under `re.IGNORECASE` the pattern letters
`E`, `M`, `P` each match exactly their two ASCII case variants, which is
exactly what upper-casing folds; digits are matched by the Unicode Nd
class `isPyDigit` and are unchanged by `.upper()`. -/
def extractEmpId (q : String) : Option String :=
  (findEmpAux (q.data.map Char.toUpper)).map (fun ds => String.mk ('E' :: 'M' :: 'P' :: ds))

/-- Substring occurrence on character lists, modelling Python `needle in hay`. -/
def containsSub (n : List Char) : List Char → Bool
  | [] => n.isEmpty
  | c :: t => n.isPrefixOf (c :: t) || containsSub n t

/-- Substring occurrence on strings. -/
def containsSubstr (n h : String) : Bool :=
  containsSub n.data h.data

/-- Python `"\n".join(parts)`. -/
def joinContext : List String → String
  | [] => ""
  | [p] => p
  | p :: ps => p ++ "\n" ++ joinContext ps

/-- The whitespace set of Python's `str.isspace` (the set that `str.strip`
and no-argument `str.split` use): the Unicode space separators plus the
bidirectional classes WS, B and S. -/
def isPyWhite (c : Char) : Bool :=
  let n := c.toNat
  (9 ≤ n && n ≤ 13) || (28 ≤ n && n ≤ 32) || n == 0x85 || n == 0xA0
    || n == 0x1680 || (0x2000 ≤ n && n ≤ 0x200A) || n == 0x2028 || n == 0x2029
    || n == 0x202F || n == 0x205F || n == 0x3000

/-- Counts maximal non-whitespace runs; the flag records whether the scan
is currently inside a word. -/
def countWordsAux : List Char → Bool → Nat
  | [], _ => 0
  | c :: t, inWord =>
    if isPyWhite c then countWordsAux t false
    else (if inWord then 0 else 1) + countWordsAux t true

/-- Number of words of a query, modelling `len(query.split())`:
whitespace-separated, empty fragments dropped (= number of maximal
non-whitespace runs). -/
def wordCount (q : String) : Nat :=
  countWordsAux q.data false

/-- The apostrophe character, spliced into the literal response texts. -/
def apos : String :=
  String.singleton (Char.ofNat 39)

/-- The fixed no-information response of `process_query`. -/
def noInfoResponse : String :=
  "I couldn" ++ apos ++ "t find any relevant policy information or employee data for your query."

/-- `RAGPipeline._construct_prompt`. -/
def constructPrompt (query context : String) : String :=
  "\nYou are the Helix Corp HR Intelligence Bot. \nAnswer the user" ++ apos
    ++ "s question strictly based on the provided context.\nIf the answer is not in the context, say \"I don"
    ++ apos ++ "t have enough information.\"\n\nContext:\n" ++ context
    ++ "\n\nQuestion: " ++ query ++ "\n\nAnswer:\n"

/-- The tenure lines of the rendered profile block, present exactly when
`calculate_tenure` succeeded.  Numeric rendering uses the `ℚ`/`Int`
`toString`; no property in scope depends on the digit format. -/
def tenureLines : Except String TenureInfo → String
  | .error _ => ""
  | .ok t =>
    "Tenure: " ++ toString t.tenureYears ++ " years (" ++ toString t.tenureDays ++ " days)\n"
      ++ "Sabbatical Eligible: " ++ (if t.sabbaticalEligible then "Yes" else "No") ++ "\n"

/-- The fixed-format employee profile block rendered by `process_query`. -/
def empProfileBlock (empId : String) (info : EmployeeInfo) (tenure : Except String TenureInfo) : String :=
  "--- User Profile (" ++ empId ++ ") ---\n"
    ++ "Name: " ++ info.emp.name ++ "\n"
    ++ "Department: " ++ info.emp.dept ++ "\n"
    ++ "Location: " ++ info.emp.location ++ "\n"
    ++ "Joining Date: "
    ++ (match info.emp.joinDate with
        | some d => dateStr d ++ " 00:00:00"
        | none => "NaT") ++ "\n"
    ++ tenureLines tenure
    ++ "Leaves Taken: " ++ toString info.leaves.length ++ " records\n"
    ++ "Attendance Days: " ++ toString info.attendanceCount ++ "\n"

/-- Step 1 of `process_query`: the employee context block and its citation,
or `none` when no employee token is present or the lookup returned the
error result (in which case the source only logs a warning). -/
def empContext (st : RetrieverState) (q : String) : Option (String × String) :=
  match extractEmpId q with
  | none => none
  | some id =>
    match getEmployeeInfo st id with
    | .error _ => none
    | .ok info => some (empProfileBlock id info (calculateTenure st id), "Employee DB: " ++ id)

/-- The per-chunk lines of the rendered policy block. -/
def policyChunkLines (r : SearchResult) : String :=
  "Source: " ++ r.source ++ " (Page " ++ toString r.page ++ ")\n"
    ++ "Content: " ++ r.text ++ "\n\n"

/-- The rendered policy context block. -/
def policyBlockOf (results : List SearchResult) : String :=
  "--- Relevant HR Policies ---\n" ++ String.join (results.map policyChunkLines)

/-- The citation string of one policy hit: `source (Page N)`. -/
def citeOf (r : SearchResult) : String :=
  r.source ++ " (Page " ++ toString r.page ++ ")"

/-- The confidence block of `_calculate_confidence`. -/
structure Confidence where
  score : ℚ
  level : String
  reasons : List String
deriving DecidableEq, Repr

/-- Factor-1 test of `_calculate_confidence`:
`len(context_parts) > 0 and "User Profile" in context_parts[0]`. -/
def profileSeen (contextParts : List String) : Bool :=
  match contextParts with
  | [] => false
  | p :: _ => containsSubstr "User Profile" p

/-- Factor 1: employee data completeness — 30, 10 or 0 points. -/
def confFactor1 (contextParts : List String) (empMatch : Bool) : ℚ :=
  if empMatch then (if profileSeen contextParts then 30 else 10) else 0

/-- Factor 2: 15 points per retrieved policy chunk, capped at 40. -/
def confFactor2 (policyResults : List SearchResult) : ℚ :=
  if policyResults.isEmpty then 0 else min ((policyResults.length : ℚ) * 15) 40

/-- Factor 3: query length — 15 points for more than 5 words, else 5. -/
def confFactor3 (q : String) : ℚ :=
  if 5 < wordCount q then 15 else 5

/-- Factor 4: 15 points when at least 2 context blocks exist. -/
def confFactor4 (contextParts : List String) : ℚ :=
  if 2 ≤ contextParts.length then 15 else 0

/-- `RAGPipeline._calculate_confidence`: the four-factor heuristic score,
clamped to 100, with its qualitative level and reason list.  Factor 1
checks the literal substring `"User Profile"` in the first context block,
exactly as the source does. -/
def calcConfidence (q : String) (contextParts : List String)
    (policyResults : List SearchResult) (empMatch : Bool) : Confidence :=
  let r1 : List String :=
    if empMatch then
      (if profileSeen contextParts then ["Employee data found"]
       else ["Employee ID mentioned but data incomplete"])
    else []
  let r2 : List String :=
    if policyResults.isEmpty then []
    else [toString policyResults.length ++ " relevant policy documents found"]
  let r3 : List String := if 5 < wordCount q then ["Detailed query"] else ["Brief query"]
  let r4 : List String := if 2 ≤ contextParts.length then ["Multiple context sources"] else []
  let score := min (confFactor1 contextParts empMatch + confFactor2 policyResults
    + confFactor3 q + confFactor4 contextParts) 100
  { score := round1 score,
    level := if 75 ≤ score then "High" else if 50 ≤ score then "Medium" else "Low",
    reasons := r1 ++ r2 ++ r3 ++ r4 }

/-- The output record of `process_query`.  `llmCalled` mirrors whether the
control flow reached the `generate_text` call (it is set on exactly that
branch), so "no generation backend call" is expressible. -/
structure PipelineResult where
  response : String
  citations : List String
  intent : String
  context : String
  confidence : Option Confidence
  llmCalled : Bool
deriving DecidableEq, Repr

/-- The one-shot intent classification of `process_query`: the default
`POLICY_SEARCH`, overwritten to `EMPLOYEE_INFO_HYBRID` when the
employee-token scan matched. -/
def intentOf (q : String) : String :=
  if (extractEmpId q).isSome then "EMPLOYEE_INFO_HYBRID" else "POLICY_SEARCH"

/-- `RAGPipeline.process_query`: intent from the employee-token scan, the
optional employee context block, the unconditional top-3 policy search,
the early no-context return, and otherwise prompt construction, generation
and confidence scoring. -/
def processQuery (st : RetrieverState) (client : LLMClient) (q : String) : PipelineResult :=
  let m := extractEmpId q
  let intent := intentOf q
  let ec := empContext st q
  let results := searchPolicies st q 3 client
  let contextParts :=
    (ec.map Prod.fst).toList ++ (if results.isEmpty then [] else [policyBlockOf results])
  let citations :=
    (ec.map Prod.snd).toList ++ (if results.isEmpty then [] else results.map citeOf)
  if contextParts.isEmpty then
    { response := noInfoResponse, citations := [], intent := intent,
      context := "", confidence := none, llmCalled := false }
  else
    let fullContext := joinContext contextParts
    { response := client.genText (constructPrompt q fullContext),
      citations := citations, intent := intent, context := fullContext,
      confidence := some (calcConfidence q contextParts results m.isSome),
      llmCalled := true }

/-! ## Data loader (`DataLoader` + `utils.clean_dataframe`)

Tables are modelled cell-wise: a cell is a string, a parsed date, or a
missing value (`NaN`/`NaT`). -/

/-- One cell of a loaded table. -/
inductive CellValue
  | str (s : String)
  | date (d : Date)
  | missing
deriving DecidableEq, Repr

/-- Python `str.strip()` on a character list: drop leading and trailing
whitespace (the `str.isspace` set). -/
def stripChars (l : List Char) : List Char :=
  (((l.dropWhile isPyWhite).reverse.dropWhile isPyWhite).reverse)

/-- Python `str.strip()` on strings. -/
def stripStr (s : String) : String :=
  String.mk (stripChars s.data)

/-- `clean_dataframe` on one cell: string cells are stripped
(`df[col].str.strip()` on object columns); missing values and parsed dates
are untouched. -/
def cleanCell : CellValue → CellValue
  | .str s => .str (stripStr s)
  | c => c

/-- `df.fillna("Unknown")` on one cell: every missing value becomes the
literal string `"Unknown"`; other cells are untouched.  For the parsed
date column this models the pandas (&lt; 3.0) behaviour of coercing the
column to object dtype to hold the incompatible fill value. -/
def fillCell : CellValue → CellValue
  | .missing => .str "Unknown"
  | c => c

/-- A raw employee CSV row: the `Joining Date` column plus the remaining
columns. -/
structure RawEmployeeRow where
  joiningDateRaw : CellValue
  fields : List CellValue
deriving DecidableEq, Repr

/-- A loaded employee row: the parsed-then-filled `Joining_Date` column
plus the cleaned and filled remaining columns. -/
structure EmployeeRow where
  joiningDate : CellValue
  fields : List CellValue
deriving DecidableEq, Repr

/-- `pd.to_datetime(value, errors="coerce")` on one raw cell, parameterised
by the date parser `parse` (the parser itself is the external library):
strings parse or coerce to `NaT` (`missing`); missing stays `NaT`. -/
def coerceDate (parse : String → Option Date) : CellValue → CellValue
  | .str s => match parse s with
    | some d => .date d
    | none => .missing
  | .date d => .date d
  | .missing => .missing

/-- `DataLoader.load_employees`: parse the `Joining Date` column with
coercion, clean (strip) the string columns, then fill every missing value
with `"Unknown"` — including a coerced `NaT` joining date, which the fill
replaces with the string sentinel. -/
def loadEmployees (parse : String → Option Date) (rows : List RawEmployeeRow) : List EmployeeRow :=
  rows.map (fun r =>
    { joiningDate := fillCell (coerceDate parse r.joiningDateRaw),
      fields := r.fields.map (fun c => fillCell (cleanCell c)) })

/-- `DataLoader.load_leaves`: read then `clean_dataframe` only — no
missing-value fill and no date parsing. -/
def loadLeaves (rows : List (List CellValue)) : List (List CellValue) :=
  rows.map (fun r => r.map cleanCell)

/-- One raw attendance record inside an employee's `records` list. -/
structure RawAttRec where
  dateRaw : CellValue
  fields : List CellValue
deriving DecidableEq, Repr

/-- One loaded attendance row: the owning employee id stamped onto the
record, the parsed `date` column, and the cleaned remaining columns. -/
structure AttRow where
  empId : String
  date : CellValue
  fields : List CellValue
deriving DecidableEq, Repr

/-- `DataLoader.load_attendance`: flatten the `emp_id → {records}` mapping
stamping each record with its employee id, clean — which strips every
object column of the flattened frame, the stamped `emp_id` included —
then parse the `date` column with coercion.  No missing-value fill. -/
def loadAttendance (parse : String → Option Date) (src : List (String × List RawAttRec)) : List AttRow :=
  (src.map (fun pr => pr.2.map (fun r =>
    { empId := stripStr pr.1,
      date := coerceDate parse (cleanCell r.dateRaw),
      fields := r.fields.map cleanCell : AttRow }))).flatten

/-- Whether a character list does not start with whitespace
(`str.isspace` set). -/
def noLeadWs : List Char → Bool
  | [] => true
  | c :: _ => !isPyWhite c

/-- The cell at row `i`, column `j` of a cell table. -/
def cellAt (t : List (List CellValue)) (i j : Nat) : Option CellValue :=
  t[i]?.bind (fun r => r[j]?)

/-! ## Specification-side predicates and concrete states used by the
claims. -/

/-- Declarative statement of "the query contains a token matching
`EMP` followed by one or more digits, case-insensitively": the upper-cased
character sequence contains `E`, `M`, `P` followed by a decimal digit
(Unicode Nd, the class Python's `\d` matches). -/
def hasEmpPattern (l : List Char) : Prop :=
  ∃ pre d post, l = pre ++ 'E' :: 'M' :: 'P' :: d :: post ∧ isPyDigit d = true

/-- The confidence formula exactly as the claim states it: 30 points when
an employee token matched and the employee profile block was built, 10
when a token matched but the profile was not built, 0 otherwise; 15 points
per retrieved policy chunk capped at 40; 15 points for more than 5 words
else 5; 15 points for at least 2 context blocks; clamped to 100.  Kept
separate from `calcConfidence` (the code) so the two can be compared. -/
def specConfidenceScore (empMatched profileBuilt : Bool) (numPolicy words numParts : Nat) : ℚ :=
  let f1 : ℚ := if empMatched then (if profileBuilt then 30 else 10) else 0
  let f2 : ℚ := min ((numPolicy : ℚ) * 15) 40
  let f3 : ℚ := if 5 < words then 15 else 5
  let f4 : ℚ := if 2 ≤ numParts then 15 else 0
  min (f1 + f2 + f3 + f4) 100

/-- Table holding `EMP1001` with joining date 2018-01-01, the end-to-end
scenario of the spec. -/
def stEmp1001 : RetrieverState :=
  { employees := [⟨"EMP1001", "Alice", "Engineering", "Sydney", some ⟨2018, 1, 1⟩⟩],
    leaves := [], attendance := [], store := [] }

/-- Table holding an employee whose tenure is exactly 1826 days at the
reference date (joining date 2021-02-05): the unrounded tenure is
4.9993… years, which rounds to 5.00. -/
def stTenureBoundary : RetrieverState :=
  { employees := [⟨"EMP1826", "Bob", "HR", "Perth", some ⟨2021, 2, 5⟩⟩],
    leaves := [], attendance := [], store := [] }

/-- State with no employees and one indexed policy chunk whose text
contains the substring `"User Profile"`. -/
def stProfileLeak : RetrieverState :=
  { employees := [], leaves := [], attendance := [],
    store := addDocuments []
      [⟨"All User Profile records are confidential.", "handbook.pdf", 2⟩]
      mockLLMClient }

/-- State whose employee table lacks `EMP9` while the leave and attendance
tables both hold `EMP9` rows. -/
def stOrphanRows : RetrieverState :=
  { employees := [⟨"EMP1", "Dana", "Finance", "Perth", some ⟨2020, 6, 1⟩⟩],
    leaves := [⟨"EMP9", "annual"⟩],
    attendance := [⟨"EMP9", none, "Present"⟩],
    store := [] }

/-- State holding `EMP7` with a missing (`NaT`) joining date. -/
def stNoJoinDate : RetrieverState :=
  { employees := [⟨"EMP7", "Carol", "Ops", "Perth", none⟩],
    leaves := [], attendance := [], store := [] }

/-- A store of four chunks with distinct texts, all ingested with the stub
embedding client (so all four embeddings are identical). -/
def storeFourDocs : List StoredDoc :=
  addDocuments
    (addDocuments [] [⟨"alpha", "p.pdf", 1⟩, ⟨"beta", "p.pdf", 2⟩, ⟨"gamma", "p.pdf", 3⟩]
      mockLLMClient)
    [⟨"target text", "p.pdf", 4⟩] mockLLMClient

/-! ## Helper lemmas -/

theorem find?_eq_none_of_all_ne {st : RetrieverState} {empId : String}
    (h : ∀ e ∈ st.employees, e.empId ≠ empId) :
    st.employees.find? (fun e => e.empId == empId) = none := by
  rw [List.find?_eq_none]
  intro e he
  simp [h e he]

theorem calculateTenure_found (st : RetrieverState) (empId : String) (e : Employee) (jd : Date)
    (hfind : st.employees.find? (fun x => x.empId == empId) = some e)
    (hjd : e.joinDate = some jd) :
    calculateTenure st empId = .ok
      { empId := empId, joiningDate := dateStr jd,
        tenureDays := referenceDate.toDays - jd.toDays,
        tenureYears := round2 (((referenceDate.toDays - jd.toDays : Int) : ℚ) / (365.25 : ℚ)),
        sabbaticalEligible :=
          decide ((5 : ℚ) ≤ ((referenceDate.toDays - jd.toDays : Int) : ℚ) / (365.25 : ℚ)),
        seniorBenefitsEligible :=
          decide ((3 : ℚ) ≤ ((referenceDate.toDays - jd.toDays : Int) : ℚ) / (365.25 : ℚ)) } := by
  simp [calculateTenure, hfind, hjd]

theorem processQuery_intent (st : RetrieverState) (client : LLMClient) (q : String) :
    (processQuery st client q).intent = intentOf q := by
  unfold processQuery
  dsimp only
  split <;> split <;> rfl

/-! ## C1 — tenure arithmetic and eligibility thresholds -/

/-- C1 (counterexample): for the employee joined 2021-02-05 the code
returns `tenure_years = 5.00` (the 2-decimal rounding of 1826 / 365.25 =
4.9993…) yet `sabbatical_eligible = false`, so the claim's
"`sabbatical_eligible` true exactly when `tenure_years ≥ 5`", read on the
returned `tenure_years` field, is false. -/
theorem c1_counterexample :
    calculateTenure stTenureBoundary "EMP1826" =
      .ok { empId := "EMP1826", joiningDate := "2021-02-05", tenureDays := 1826,
            tenureYears := 5, sabbaticalEligible := false,
            seniorBenefitsEligible := true }
    ∧ ((5 : ℚ) ≥ 5) := by
  refine ⟨?_, le_refl 5⟩
  rw [calculateTenure_found stTenureBoundary "EMP1826"
        ⟨"EMP1826", "Bob", "HR", "Perth", some ⟨2021, 2, 5⟩⟩ ⟨2021, 2, 5⟩ (by decide) rfl]
  have hd : referenceDate.toDays - Date.toDays ⟨2021, 2, 5⟩ = 1826 := by decide
  have h1 : dateStr ⟨2021, 2, 5⟩ = "2021-02-05" := by decide
  have h2 : round2 (((1826 : Int) : ℚ) / (365.25 : ℚ)) = 5 := by
    unfold round2
    rw [round_eq]
    norm_num
  have h3 : decide ((5 : ℚ) ≤ ((1826 : Int) : ℚ) / (365.25 : ℚ)) = false := by
    rw [decide_eq_false_iff_not]
    norm_num
  have h4 : decide ((3 : ℚ) ≤ ((1826 : Int) : ℚ) / (365.25 : ℚ)) = true := by
    rw [decide_eq_true_eq]
    norm_num
  rw [hd, h1, h2, h3, h4]

/-- C1 (amended): for every employee identifier found in the table with a
parseable joining date, `calculate_tenure` returns `tenure_days` equal to
the day difference to the fixed reference date 2026-02-05, `tenure_years`
equal to `tenure_days / 365.25` rounded to 2 decimals, and the two
eligibility flags computed from the unrounded ratio: sabbatical at ≥ 5
years, senior benefits at ≥ 3 years. -/
theorem c1_amended (st : RetrieverState) (empId : String) (e : Employee) (jd : Date)
    (hfind : st.employees.find? (fun x => x.empId == empId) = some e)
    (hjd : e.joinDate = some jd) :
    (calculateTenure st empId).toOption.map TenureInfo.tenureDays
        = some (referenceDate.toDays - jd.toDays)
    ∧ (calculateTenure st empId).toOption.map TenureInfo.tenureYears
        = some (round2 (((referenceDate.toDays - jd.toDays : Int) : ℚ) / (365.25 : ℚ)))
    ∧ ((calculateTenure st empId).toOption.map TenureInfo.sabbaticalEligible = some true
        ↔ 5 ≤ ((referenceDate.toDays - jd.toDays : Int) : ℚ) / (365.25 : ℚ))
    ∧ ((calculateTenure st empId).toOption.map TenureInfo.seniorBenefitsEligible = some true
        ↔ 3 ≤ ((referenceDate.toDays - jd.toDays : Int) : ℚ) / (365.25 : ℚ)) := by
  simp [calculateTenure, hfind, hjd, Except.toOption]

/-- C1 (witness): the amended theorem applied to the `EMP1001` table. -/
theorem c1_witness :
    (calculateTenure stEmp1001 "EMP1001").toOption.map TenureInfo.tenureDays
        = some (referenceDate.toDays - Date.toDays ⟨2018, 1, 1⟩)
    ∧ (calculateTenure stEmp1001 "EMP1001").toOption.map TenureInfo.tenureYears
        = some (round2 (((referenceDate.toDays - Date.toDays ⟨2018, 1, 1⟩ : Int) : ℚ) / (365.25 : ℚ)))
    ∧ ((calculateTenure stEmp1001 "EMP1001").toOption.map TenureInfo.sabbaticalEligible = some true
        ↔ 5 ≤ ((referenceDate.toDays - Date.toDays ⟨2018, 1, 1⟩ : Int) : ℚ) / (365.25 : ℚ))
    ∧ ((calculateTenure stEmp1001 "EMP1001").toOption.map TenureInfo.seniorBenefitsEligible = some true
        ↔ 3 ≤ ((referenceDate.toDays - Date.toDays ⟨2018, 1, 1⟩ : Int) : ℚ) / (365.25 : ℚ)) :=
  c1_amended stEmp1001 "EMP1001" ⟨"EMP1001", "Alice", "Engineering", "Sydney", some ⟨2018, 1, 1⟩⟩
    ⟨2018, 1, 1⟩ (by decide) rfl

/-! ## C2 — end-to-end `EMP1001` scenario -/

/-- C2 (counterexample): for `EMP1001` joined 2018-01-01 the code computes
`tenure_days = 2957`, not the claimed 2958 (2018 has 365 days, the leap
days in range are 2020-02-29 and 2024-02-29, and January 2026 contributes
31 + 4 days). -/
theorem c2_counterexample :
    (calculateTenure stEmp1001 "EMP1001").toOption.map TenureInfo.tenureDays = some 2957
    ∧ (2957 : Int) ≠ 2958 := by
  refine ⟨?_, by decide⟩
  rw [calculateTenure_found stEmp1001 "EMP1001"
        ⟨"EMP1001", "Alice", "Engineering", "Sydney", some ⟨2018, 1, 1⟩⟩ ⟨2018, 1, 1⟩
        (by decide) rfl]
  simp [Except.toOption, show referenceDate.toDays - Date.toDays ⟨2018, 1, 1⟩ = 2957 from by decide]

/-- C2 (amended): the end-to-end scenario with the corrected day count —
query "Tell me about EMP1001" yields `tenure_days = 2957` (8.10 years
rounded), `sabbatical_eligible = true`, and the citation
`"Employee DB: EMP1001"` in the pipeline result. -/
theorem c2_amended :
    (calculateTenure stEmp1001 "EMP1001").toOption.map TenureInfo.tenureDays = some 2957
    ∧ (calculateTenure stEmp1001 "EMP1001").toOption.map TenureInfo.tenureYears = some (81 / 10)
    ∧ (calculateTenure stEmp1001 "EMP1001").toOption.map TenureInfo.sabbaticalEligible = some true
    ∧ (processQuery stEmp1001 mockLLMClient "Tell me about EMP1001").citations.contains
        "Employee DB: EMP1001" = true
    ∧ (processQuery stEmp1001 mockLLMClient "Tell me about EMP1001").intent
        = "EMPLOYEE_INFO_HYBRID" := by
  have ht := calculateTenure_found stEmp1001 "EMP1001"
    ⟨"EMP1001", "Alice", "Engineering", "Sydney", some ⟨2018, 1, 1⟩⟩ ⟨2018, 1, 1⟩
    (by decide) rfl
  have hd : referenceDate.toDays - Date.toDays ⟨2018, 1, 1⟩ = 2957 := by decide
  have hx : extractEmpId "Tell me about EMP1001" = some "EMP1001" := by decide
  have hinfo : getEmployeeInfo stEmp1001 "EMP1001" =
      .ok ⟨⟨"EMP1001", "Alice", "Engineering", "Sydney", some ⟨2018, 1, 1⟩⟩, [], 0, []⟩ := by
    rfl
  have hec : empContext stEmp1001 "Tell me about EMP1001" =
      some (empProfileBlock "EMP1001"
              ⟨⟨"EMP1001", "Alice", "Engineering", "Sydney", some ⟨2018, 1, 1⟩⟩, [], 0, []⟩
              (calculateTenure stEmp1001 "EMP1001"),
            "Employee DB: EMP1001") := by
    simp [empContext, hx, hinfo]
  have hs : searchPolicies stEmp1001 "Tell me about EMP1001" 3 mockLLMClient = [] := rfl
  refine ⟨?_, ?_, ?_, ?_, ?_⟩
  · rw [ht]
    simp [Except.toOption, hd]
  · rw [ht]
    simp only [Except.toOption, Option.map_some, Option.some.injEq, hd]
    unfold round2
    rw [round_eq]
    norm_num
  · rw [ht]
    simp only [Except.toOption, Option.map_some, Option.some.injEq, hd, decide_eq_true_eq]
    norm_num
  · simp [processQuery, hec, hs]
  · rw [processQuery_intent]
    simp [intentOf, hx]

/-! ## C6 — absent employee identifiers yield error results -/

/-- C6: for every employee identifier absent from the employee table —
regardless of what the leave and attendance tables hold — both
`get_employee_info` and `calculate_tenure` return the structured
not-found error result. -/
theorem c6_absent_id_errors (st : RetrieverState) (empId : String)
    (h : ∀ e ∈ st.employees, e.empId ≠ empId) :
    getEmployeeInfo st empId = .error ("Employee " ++ empId ++ " not found")
    ∧ calculateTenure st empId = .error ("Employee " ++ empId ++ " not found") := by
  have hf := find?_eq_none_of_all_ne h
  constructor <;> simp [getEmployeeInfo, calculateTenure, hf]

/-- C6 (witness): `EMP9` is present in the leave and attendance tables but
absent from the employee table; both lookups return the error result. -/
theorem c6_witness :
    getEmployeeInfo stOrphanRows "EMP9" = .error "Employee EMP9 not found"
    ∧ calculateTenure stOrphanRows "EMP9" = .error "Employee EMP9 not found" :=
  c6_absent_id_errors stOrphanRows "EMP9" (by decide)

/-! ## C9 — case-insensitive employee-identifier lookup -/

/-- C9: two queries with the same upper-casing (in particular queries
differing only in the letter case of the embedded employee token) extract
the same upper-cased employee identifier, so the structured lookup and the
resulting employee context block are identical. -/
theorem c9_case_fold (st : RetrieverState) (q1 q2 : String)
    (h : q1.data.map Char.toUpper = q2.data.map Char.toUpper) :
    extractEmpId q1 = extractEmpId q2 ∧ empContext st q1 = empContext st q2 := by
  have he : extractEmpId q1 = extractEmpId q2 := by
    unfold extractEmpId
    rw [h]
  exact ⟨he, by unfold empContext; rw [he]⟩

/-- C9 (witness): `"tell me about emp1001"` and `"Tell me about EMP1001"`
produce the same extraction and the same employee context. -/
theorem c9_witness :
    extractEmpId "tell me about emp1001" = extractEmpId "Tell me about EMP1001"
    ∧ empContext stEmp1001 "tell me about emp1001"
        = empContext stEmp1001 "Tell me about EMP1001" :=
  c9_case_fold stEmp1001 "tell me about emp1001" "Tell me about EMP1001" (by decide)

/-! ## C5 — no-context early return -/

/-- C5: whenever neither the employee lookup produced a context block nor
the policy search returned any chunk, `process_query` returns the fixed
no-information response with empty citations, no confidence block, and no
generation call. -/
theorem c5_no_context (st : RetrieverState) (client : LLMClient) (q : String)
    (h1 : empContext st q = none)
    (h2 : searchPolicies st q 3 client = []) :
    processQuery st client q =
      { response := noInfoResponse, citations := [], intent := intentOf q,
        context := "", confidence := none, llmCalled := false } := by
  simp [processQuery, h1, h2]

/-- C5 (witness): the empty state with the query `"hello there"`. -/
theorem c5_witness :
    processQuery ⟨[], [], [], []⟩ mockLLMClient "hello there" =
      { response := noInfoResponse, citations := [], intent := intentOf "hello there",
        context := "", confidence := none, llmCalled := false } :=
  c5_no_context ⟨[], [], [], []⟩ mockLLMClient "hello there" rfl rfl

/-! ## C10 — tenure failure keeps the employee context -/

theorem isPrefixOf_append_self (l t : List Char) : l.isPrefixOf (l ++ t) = true := by
  induction l with
  | nil => cases t <;> rfl
  | cons a l ih => simp [List.isPrefixOf, ih]

theorem isPrefixOf_self (l : List Char) : l.isPrefixOf l = true := by
  have h := isPrefixOf_append_self l []
  rwa [List.append_nil] at h

theorem containsSub_self (l : List Char) : containsSub l l = true := by
  cases l with
  | nil => rfl
  | cons c t => simp [containsSub, isPrefixOf_self]

theorem containsSubstr_self (a : String) : containsSubstr a a = true := by
  unfold containsSubstr
  exact containsSub_self a.data

theorem containsSubstr_left (a b : String) : containsSubstr a (a ++ b) = true := by
  unfold containsSubstr
  rw [String.data_append]
  have hp := isPrefixOf_append_self a.data b.data
  cases h : a.data ++ b.data with
  | nil =>
    have ha : a.data = [] := (List.append_eq_nil.mp h).1
    simp [containsSub, ha]
  | cons c t =>
    rw [containsSub, ← h, hp]
    rfl

theorem containsSubstr_joinContext_head (p : String) (ps : List String) :
    containsSubstr p (joinContext (p :: ps)) = true := by
  cases ps with
  | nil => exact containsSubstr_self p
  | cons r rs =>
    have hj : joinContext (p :: r :: rs) = p ++ "\n" ++ joinContext (r :: rs) := rfl
    rw [hj, String.append_assoc]
    exact containsSubstr_left p ("\n" ++ joinContext (r :: rs))

/-- C10: when the employee lookup succeeds but the tenure calculation
returns an error result, `process_query` still emits the employee profile
block (rendered without the tenure lines, since `tenureLines` of an error
is empty) and the `"Employee DB: <id>"` citation, and the query still
completes with a confidence block rather than failing. -/
theorem c10_tenure_error_keeps_profile (st : RetrieverState) (client : LLMClient) (q : String)
    (empId : String) (info : EmployeeInfo) (msg : String)
    (hx : extractEmpId q = some empId)
    (hinfo : getEmployeeInfo st empId = .ok info)
    (hten : calculateTenure st empId = .error msg) :
    (processQuery st client q).citations.contains ("Employee DB: " ++ empId) = true
    ∧ containsSubstr (empProfileBlock empId info (.error msg)) (processQuery st client q).context
        = true
    ∧ (processQuery st client q).confidence.isSome = true
    ∧ tenureLines (.error msg) = "" := by
  have hec : empContext st q =
      some (empProfileBlock empId info (.error msg), "Employee DB: " ++ empId) := by
    simp [empContext, hx, hinfo, hten]
  cases hr : searchPolicies st q 3 client with
  | nil =>
    refine ⟨?_, ?_, ?_, rfl⟩ <;>
      simp [processQuery, hec, hr, containsSubstr_joinContext_head]
  | cons r rs =>
    refine ⟨?_, ?_, ?_, rfl⟩ <;>
      simp [processQuery, hec, hr, containsSubstr_joinContext_head]

/-- C10 (witness): `EMP7` exists with a missing joining date; the profile
block and citation survive the tenure error. -/
theorem c10_witness :
    (processQuery stNoJoinDate mockLLMClient "Tell me about EMP7").citations.contains
        ("Employee DB: " ++ "EMP7") = true
    ∧ containsSubstr
        (empProfileBlock "EMP7" ⟨⟨"EMP7", "Carol", "Ops", "Perth", none⟩, [], 0, []⟩
          (.error "Joining date not available"))
        (processQuery stNoJoinDate mockLLMClient "Tell me about EMP7").context = true
    ∧ (processQuery stNoJoinDate mockLLMClient "Tell me about EMP7").confidence.isSome = true
    ∧ tenureLines (.error "Joining date not available") = "" :=
  c10_tenure_error_keeps_profile stNoJoinDate mockLLMClient "Tell me about EMP7" "EMP7"
    ⟨⟨"EMP7", "Carol", "Ops", "Perth", none⟩, [], 0, []⟩ "Joining date not available"
    (by decide) rfl rfl

/-! ## C4 — intent classification -/

theorem hasEmpPattern_nil : ¬ hasEmpPattern [] := by
  rintro ⟨pre, d, post, heq, -⟩
  cases pre <;> simp_all

theorem hasEmpPattern_cons (a : Char) (cs : List Char) :
    hasEmpPattern (a :: cs)
      ↔ (∃ d post, a = 'E' ∧ cs = 'M' :: 'P' :: d :: post ∧ isPyDigit d = true)
        ∨ hasEmpPattern cs := by
  constructor
  · rintro ⟨pre, d, post, heq, hd⟩
    cases pre with
    | nil =>
      simp only [List.nil_append, List.cons.injEq] at heq
      exact Or.inl ⟨d, post, heq.1, heq.2, hd⟩
    | cons b pre =>
      simp only [List.cons_append, List.cons.injEq] at heq
      exact Or.inr ⟨pre, d, post, heq.2, hd⟩
  · rintro (⟨d, post, ha, hcs, hd⟩ | ⟨pre, d, post, heq, hd⟩)
    · exact ⟨[], d, post, by simp [ha, hcs], hd⟩
    · exact ⟨a :: pre, d, post, by simp [heq], hd⟩

theorem findEmpAux_isSome (l : List Char) :
    (findEmpAux l).isSome = true ↔ hasEmpPattern l := by
  induction l with
  | nil => simp [findEmpAux, hasEmpPattern_nil]
  | cons a cs ih =>
    rw [hasEmpPattern_cons]
    cases cs with
    | nil =>
      simp [findEmpAux, hasEmpPattern_nil]
    | cons b cs' =>
      cases cs' with
      | nil =>
        have hstep : findEmpAux (a :: b :: []) = findEmpAux (b :: []) := rfl
        rw [hstep, ih]
        simp
      | cons p rest =>
        by_cases hc : a = 'E' ∧ b = 'M' ∧ p = 'P'
        · obtain ⟨ha, hb, hp⟩ := hc
          subst ha
          subst hb
          subst hp
          cases rest with
          | nil =>
            simp [findEmpAux, hasEmpPattern_cons, hasEmpPattern_nil]
          | cons d post =>
            by_cases hd : isPyDigit d = true
            · have hds : List.takeWhile isPyDigit (d :: post)
                  = d :: List.takeWhile isPyDigit post := by
                simp [List.takeWhile_cons, hd]
              have hL : (findEmpAux ('E' :: 'M' :: 'P' :: d :: post)).isSome = true := by
                simp [findEmpAux, hds]
              rw [hL]
              exact iff_of_true rfl (Or.inl ⟨d, post, rfl, rfl, hd⟩)
            · have hdf : isPyDigit d = false := by
                simpa using hd
              have hds : List.takeWhile isPyDigit (d :: post) = [] := by
                simp [List.takeWhile_cons, hdf]
              have hstep : findEmpAux ('E' :: 'M' :: 'P' :: d :: post)
                  = findEmpAux ('M' :: 'P' :: d :: post) := by
                simp [findEmpAux, hds]
              rw [hstep, ih]
              simp [hd]
        · have hstep : findEmpAux (a :: b :: p :: rest) = findEmpAux (b :: p :: rest) := by
            simp [findEmpAux, hc]
          have hno : ¬ (∃ d post, a = 'E' ∧ b :: p :: rest = 'M' :: 'P' :: d :: post
              ∧ isPyDigit d = true) := by
            rintro ⟨d, post, ha, hcs, -⟩
            simp only [List.cons.injEq] at hcs
            exact hc ⟨ha, hcs.1, hcs.2.1⟩
          rw [hstep, ih]
          exact ⟨Or.inr, fun h => h.elim (fun hf => absurd hf hno) id⟩

theorem extractEmpId_isSome_iff (q : String) :
    (extractEmpId q).isSome = true ↔ hasEmpPattern (q.data.map Char.toUpper) := by
  rw [← findEmpAux_isSome]
  unfold extractEmpId
  cases findEmpAux (q.data.map Char.toUpper) <;> simp

/-- C4: the `intent` field of every `process_query` result is
`"EMPLOYEE_INFO_HYBRID"` exactly when the upper-cased query contains
`EMP` followed by a decimal digit — Unicode category Nd, the class that
`\d` matches, not only ASCII — and is `"POLICY_SEARCH"` otherwise; no
third value occurs. -/
theorem c4_intent_classification (st : RetrieverState) (client : LLMClient) (q : String) :
    ((processQuery st client q).intent = "EMPLOYEE_INFO_HYBRID"
      ↔ hasEmpPattern (q.data.map Char.toUpper))
    ∧ ((processQuery st client q).intent = "EMPLOYEE_INFO_HYBRID"
      ∨ (processQuery st client q).intent = "POLICY_SEARCH") := by
  rw [processQuery_intent]
  unfold intentOf
  rw [← extractEmpId_isSome_iff]
  by_cases h : (extractEmpId q).isSome = true <;> simp [h]

/-! ## C8 — vector-store round trip with the stub embedder -/

theorem sqDist_self (v : List ℚ) : sqDist v v = 0 := by
  induction v with
  | nil => rfl
  | cons a t ih =>
    have h : sqDist (a :: t) (a :: t) = (a - a) ^ 2 + sqDist t t := by
      simp [sqDist, List.zip_cons_cons]
    rw [h, ih, sub_self]
    ring

theorem insertByDist_last (x : SearchResult) (acc : List SearchResult)
    (h : ∀ y ∈ acc, ¬ x.distance < y.distance) : insertByDist x acc = acc ++ [x] := by
  induction acc with
  | nil => rfl
  | cons y ys ih =>
    rw [insertByDist, if_neg (h y (List.mem_cons_self y ys))]
    rw [ih (fun z hz => h z (List.mem_cons_of_mem y hz))]
    rfl

theorem foldl_insert_const (d : ℚ) :
    ∀ (l acc : List SearchResult), (∀ r ∈ l, r.distance = d) → (∀ y ∈ acc, y.distance = d) →
      List.foldl (fun acc x => insertByDist x acc) acc l = acc ++ l := by
  intro l
  induction l with
  | nil =>
    intro acc _ _
    simp
  | cons x xs ih =>
    intro acc hl hacc
    have hx : x.distance = d := hl x (List.mem_cons_self x xs)
    simp only [List.foldl_cons]
    rw [insertByDist_last x acc (fun y hy => by rw [hacc y hy, hx]; exact lt_irrefl d)]
    rw [ih (acc ++ [x]) (fun r hr => hl r (List.mem_cons_of_mem x hr))
        (fun y hy => by
          rcases List.mem_append.mp hy with hys | hyx
          · exact hacc y hys
          · rw [List.mem_singleton.mp hyx]
            exact hx)]
    rw [List.append_assoc]
    rfl

theorem sortByDist_const (l : List SearchResult) (d : ℚ) (h : ∀ r ∈ l, r.distance = d) :
    sortByDist l = l := by
  unfold sortByDist
  simpa using foldl_insert_const d l [] h (by simp)

theorem search_mock (store : List StoredDoc) (q : String) (k : Nat)
    (h : ∀ dd ∈ store, dd.embedding = mockVec) :
    search store q k mockLLMClient
      = (store.map (fun dd =>
          { text := dd.text, source := dd.source, page := dd.page,
            distance := 0 : SearchResult })).take k := by
  unfold search
  have hm : store.map (fun dd =>
        { text := dd.text, source := dd.source, page := dd.page,
          distance := sqDist (mockLLMClient.getEmbedding q) dd.embedding : SearchResult })
      = store.map (fun dd =>
        { text := dd.text, source := dd.source, page := dd.page,
          distance := 0 : SearchResult }) := by
    apply List.map_congr_left
    intro dd hdd
    rw [show mockLLMClient.getEmbedding q = mockVec from rfl, h dd hdd, sqDist_self]
  dsimp only
  rw [hm]
  rw [sortByDist_const _ 0 ?hz]
  case hz =>
    intro r hr
    rcases List.mem_map.mp hr with ⟨dd, -, rfl⟩
    rfl

theorem addDocuments_mock_embedding (store : List StoredDoc) (docs : List Chunk)
    (h : ∀ dd ∈ store, dd.embedding = mockVec) :
    ∀ dd ∈ addDocuments store docs mockLLMClient, dd.embedding = mockVec := by
  intro dd hdd
  rcases List.mem_append.mp hdd with hs | hn
  · exact h dd hs
  · rcases List.mem_map.mp hn with ⟨c, -, rfl⟩
    rfl

/-- C8 (amended): for every chunk added to the store via `add_documents`
with the stub embedding client, a `search` for exactly its text returns it
among the top-`k` results provided the store then holds at most `k` chunks
— and its distance (like that of every stored chunk, since the stub maps
every text to one fixed vector) is the minimal distance 0.  With more than
`k` equidistant chunks the tie-break decides, so membership in the top-`k`
is only guaranteed under the size bound. -/
theorem c8_amended (store : List StoredDoc) (docs : List Chunk) (c : Chunk) (k : Nat)
    (hstore : ∀ dd ∈ store, dd.embedding = mockVec)
    (hk : store.length + docs.length ≤ k)
    (hc : c ∈ docs) :
    ((search (addDocuments store docs mockLLMClient) c.text k mockLLMClient).map
        SearchResult.text).contains c.text = true
    ∧ (∀ r ∈ search (addDocuments store docs mockLLMClient) c.text k mockLLMClient,
        r.distance = 0)
    ∧ (∀ dd ∈ addDocuments store docs mockLLMClient,
        sqDist (mockLLMClient.getEmbedding c.text) dd.embedding = 0) := by
  have hemb := addDocuments_mock_embedding store docs hstore
  have hlen : (addDocuments store docs mockLLMClient).length ≤ k := by
    simp only [addDocuments, List.length_append, List.length_map]
    exact hk
  rw [search_mock _ _ _ hemb]
  rw [List.take_of_length_le (by rw [List.length_map]; exact hlen)]
  refine ⟨?_, ?_, ?_⟩
  · rw [List.map_map]
    have hmem : c.text ∈ (addDocuments store docs mockLLMClient).map
        (SearchResult.text ∘ fun dd =>
          { text := dd.text, source := dd.source, page := dd.page,
            distance := 0 : SearchResult }) := by
      refine List.mem_map.mpr ⟨⟨c.text, c.source, c.page, mockLLMClient.getEmbedding c.text⟩,
        ?_, rfl⟩
      exact List.mem_append.mpr (Or.inr (List.mem_map.mpr ⟨c, hc, rfl⟩))
    exact List.elem_eq_true_of_mem hmem
  · intro r hr
    rcases List.mem_map.mp hr with ⟨dd, -, rfl⟩
    rfl
  · intro dd hdd
    rw [show mockLLMClient.getEmbedding c.text = mockVec from rfl, hemb dd hdd, sqDist_self]

/-- C8 (witness): the amended theorem at a two-chunk store with `k = 3`. -/
theorem c8_witness :
    ((search (addDocuments [] [⟨"a", "p.pdf", 1⟩, ⟨"target text", "p.pdf", 2⟩] mockLLMClient)
        (Chunk.text ⟨"target text", "p.pdf", 2⟩) 3 mockLLMClient).map
      SearchResult.text).contains (Chunk.text ⟨"target text", "p.pdf", 2⟩) = true :=
  (c8_amended [] [⟨"a", "p.pdf", 1⟩, ⟨"target text", "p.pdf", 2⟩] ⟨"target text", "p.pdf", 2⟩ 3
    (by simp) (by decide) (by decide)).1

/-- C8 (counterexample): with four chunks in the store — all equidistant
under the stub embedder — the chunk `"target text"` was added but a
`search` for exactly its text with `k = 3` does not return it: the claim's
unconditional top-`k` membership is false. -/
theorem c8_counterexample :
    storeFourDocs.map StoredDoc.text = ["alpha", "beta", "gamma", "target text"]
    ∧ (search storeFourDocs "target text" 3 mockLLMClient).map SearchResult.text
        = ["alpha", "beta", "gamma"]
    ∧ (["alpha", "beta", "gamma"] : List String).contains "target text" = false := by
  have hemb : ∀ dd ∈ storeFourDocs, dd.embedding = mockVec :=
    addDocuments_mock_embedding _ _
      (addDocuments_mock_embedding _ _ (fun dd h => absurd h (List.not_mem_nil dd)))
  refine ⟨by decide, ?_, by decide⟩
  rw [search_mock _ _ _ hemb]
  decide

/-! ## C3 — confidence score and level -/

theorem round1_intCast (z : ℤ) : round1 ((z : ℚ)) = (z : ℚ) := by
  unfold round1
  have h : ((z : ℚ)) * 10 = ((z * 10 : ℤ) : ℚ) := by push_cast; ring
  rw [h, round_intCast]
  push_cast
  exact mul_div_cancel_right₀ _ (by norm_num)

theorem confFactor1_int (cp : List String) (em : Bool) :
    ∃ z : ℤ, confFactor1 cp em = (z : ℚ) ∧ 0 ≤ z ∧ z ≤ 30 := by
  unfold confFactor1
  split_ifs
  exacts [⟨30, by norm_num⟩, ⟨10, by norm_num⟩, ⟨0, by norm_num⟩]

theorem confFactor2_int (pr : List SearchResult) :
    ∃ z : ℤ, confFactor2 pr = (z : ℚ) ∧ 0 ≤ z ∧ z ≤ 40 := by
  unfold confFactor2
  split_ifs with h
  · exact ⟨0, by norm_num⟩
  · rcases le_total ((pr.length : ℚ) * 15) 40 with hle | hle
    · refine ⟨(pr.length : ℤ) * 15, ?_, by positivity, ?_⟩
      · rw [min_eq_left hle]
        push_cast
        ring
      · exact_mod_cast hle
    · exact ⟨40, by rw [min_eq_right hle]; norm_num, by norm_num, le_refl 40⟩

theorem confFactor3_int (q : String) :
    ∃ z : ℤ, confFactor3 q = (z : ℚ) ∧ 0 ≤ z ∧ z ≤ 15 := by
  unfold confFactor3
  split_ifs
  exacts [⟨15, by norm_num⟩, ⟨5, by norm_num⟩]

theorem confFactor4_int (cp : List String) :
    ∃ z : ℤ, confFactor4 cp = (z : ℚ) ∧ 0 ≤ z ∧ z ≤ 15 := by
  unfold confFactor4
  split_ifs
  exacts [⟨15, by norm_num⟩, ⟨0, by norm_num⟩]

theorem calcConfidence_props (q : String) (cp : List String) (pr : List SearchResult) (em : Bool) :
    (0 ≤ (calcConfidence q cp pr em).score ∧ (calcConfidence q cp pr em).score ≤ 100)
    ∧ ((calcConfidence q cp pr em).level = "High"
        ↔ 75 ≤ (calcConfidence q cp pr em).score)
    ∧ ((calcConfidence q cp pr em).level = "Medium"
        ↔ (50 ≤ (calcConfidence q cp pr em).score ∧ (calcConfidence q cp pr em).score < 75))
    ∧ ((calcConfidence q cp pr em).level = "Low"
        ↔ (calcConfidence q cp pr em).score < 50)
    ∧ (calcConfidence q cp pr em).score
        = min (confFactor1 cp em + confFactor2 pr + confFactor3 q + confFactor4 cp) 100 := by
  obtain ⟨z1, e1, l1, u1⟩ := confFactor1_int cp em
  obtain ⟨z2, e2, l2, u2⟩ := confFactor2_int pr
  obtain ⟨z3, e3, l3, u3⟩ := confFactor3_int q
  obtain ⟨z4, e4, l4, u4⟩ := confFactor4_int cp
  set S : ℚ := min (confFactor1 cp em + confFactor2 pr + confFactor3 q + confFactor4 cp) 100
    with hS
  have hSz : S = ((min (z1 + z2 + z3 + z4) 100 : ℤ) : ℚ) := by
    rw [hS, e1, e2, e3, e4]
    push_cast
    rfl
  have hround : (calcConfidence q cp pr em).score = round1 S := by
    rw [hS]
    rfl
  have hscore : (calcConfidence q cp pr em).score = S := by
    rw [hround, hSz, round1_intCast]
  have hlevel : (calcConfidence q cp pr em).level
      = (if 75 ≤ S then "High" else if 50 ≤ S then "Medium" else "Low") := by
    rw [hS]
    rfl
  have h0 : 0 ≤ S := by
    rw [hSz]
    exact_mod_cast le_min (by omega) (by omega)
  have h100 : S ≤ 100 := by
    rw [hS]
    exact min_le_right _ _
  rw [hscore, hlevel]
  refine ⟨⟨h0, h100⟩, ?_, ?_, ?_, rfl⟩
  · by_cases h75 : (75 : ℚ) ≤ S
    · simp [h75]
    · by_cases h50 : (50 : ℚ) ≤ S <;> simp [h75, h50]
  · by_cases h75 : (75 : ℚ) ≤ S
    · have : ¬ S < 75 := not_lt.mpr h75
      simp [h75, this]
    · by_cases h50 : (50 : ℚ) ≤ S
      · simp [h75, h50, not_le.mp h75]
      · simp [h75, h50]
  · by_cases h75 : (75 : ℚ) ≤ S
    · have : ¬ S < 50 := not_lt.mpr (le_trans (by norm_num) h75)
      simp [h75, this]
    · by_cases h50 : (50 : ℚ) ≤ S
      · have : ¬ S < 50 := not_lt.mpr h50
        simp [h75, h50, this]
      · simp [h75, h50, not_le.mp h50]

theorem processQuery_confidence (st : RetrieverState) (client : LLMClient) (q : String) :
    (processQuery st client q).confidence
      = if ((((empContext st q).map Prod.fst).toList
            ++ if (searchPolicies st q 3 client).isEmpty then []
               else [policyBlockOf (searchPolicies st q 3 client)]).isEmpty)
        then none
        else some (calcConfidence q
          (((empContext st q).map Prod.fst).toList
            ++ if (searchPolicies st q 3 client).isEmpty then []
               else [policyBlockOf (searchPolicies st q 3 client)])
          (searchPolicies st q 3 client) (extractEmpId q).isSome) := by
  unfold processQuery
  dsimp only
  rw [apply_ite PipelineResult.confidence]

/-- C3 (amended): every confidence block returned by `process_query` has a
score equal to the clamped-to-100 sum of the four factors — where factor 1
awards 30 points when a token matched and the *first context block
contains the substring `"User Profile"`* (which holds whenever the profile
block was built, but can also hold when a retrieved policy chunk's text
contains that substring), 10 when a token matched without that substring,
0 otherwise — and the score lies in `[0, 100]` with level `"High"` iff
score ≥ 75, `"Medium"` iff 50 ≤ score < 75, `"Low"` iff score < 50. -/
theorem c3_amended (st : RetrieverState) (client : LLMClient) (q : String) (c : Confidence)
    (h : (processQuery st client q).confidence = some c) :
    (0 ≤ c.score ∧ c.score ≤ 100)
    ∧ (c.level = "High" ↔ 75 ≤ c.score)
    ∧ (c.level = "Medium" ↔ (50 ≤ c.score ∧ c.score < 75))
    ∧ (c.level = "Low" ↔ c.score < 50)
    ∧ c = calcConfidence q
        (((empContext st q).map Prod.fst).toList
          ++ if (searchPolicies st q 3 client).isEmpty then []
             else [policyBlockOf (searchPolicies st q 3 client)])
        (searchPolicies st q 3 client) (extractEmpId q).isSome := by
  have hc : c = calcConfidence q
      (((empContext st q).map Prod.fst).toList
        ++ if (searchPolicies st q 3 client).isEmpty then []
           else [policyBlockOf (searchPolicies st q 3 client)])
      (searchPolicies st q 3 client) (extractEmpId q).isSome := by
    rw [processQuery_confidence] at h
    by_cases hres : (searchPolicies st q 3 client).isEmpty = true
    · simp only [hres, ite_true] at h ⊢
      by_cases hcp : ((((empContext st q).map Prod.fst).toList ++ ([] : List String)).isEmpty
          = true)
      · rw [if_pos hcp] at h
        exact absurd h (by simp)
      · rw [if_neg hcp] at h
        simp only [Option.some.injEq] at h
        exact h.symm
    · have hres' : (searchPolicies st q 3 client).isEmpty = false := by
        simpa using hres
      rw [hres'] at h ⊢
      simp only [Bool.false_eq_true, if_false] at h ⊢
      have hne : ((((empContext st q).map Prod.fst).toList
          ++ [policyBlockOf (searchPolicies st q 3 client)]).isEmpty = false) := by
        cases ((empContext st q).map Prod.fst).toList <;> simp
      rw [hne] at h
      simp only [Bool.false_eq_true, if_false, Option.some.injEq] at h
      exact h.symm
  subst hc
  obtain ⟨hb, hH, hM, hL, -⟩ := calcConfidence_props q
    (((empContext st q).map Prod.fst).toList
      ++ if (searchPolicies st q 3 client).isEmpty then []
         else [policyBlockOf (searchPolicies st q 3 client)])
    (searchPolicies st q 3 client) (extractEmpId q).isSome
  exact ⟨hb, hH, hM, hL, rfl⟩

/-- C3 (witness): the amended theorem at the `EMP7` state, whose pipeline
result carries the confidence block `⟨35, "Low", …⟩`. -/
theorem c3_witness :
    (0 ≤ (35 : ℚ) ∧ (35 : ℚ) ≤ 100)
    ∧ (("Low" : String) = "High" ↔ 75 ≤ (35 : ℚ))
    ∧ (("Low" : String) = "Medium" ↔ (50 ≤ (35 : ℚ) ∧ (35 : ℚ) < 75))
    ∧ (("Low" : String) = "Low" ↔ (35 : ℚ) < 50)
    ∧ Confidence.mk 35 "Low" ["Employee data found", "Brief query"]
        = calcConfidence "Tell me about EMP7"
            (((empContext stNoJoinDate "Tell me about EMP7").map Prod.fst).toList
              ++ if (searchPolicies stNoJoinDate "Tell me about EMP7" 3 mockLLMClient).isEmpty
                 then []
                 else [policyBlockOf
                        (searchPolicies stNoJoinDate "Tell me about EMP7" 3 mockLLMClient)])
            (searchPolicies stNoJoinDate "Tell me about EMP7" 3 mockLLMClient)
            (extractEmpId "Tell me about EMP7").isSome :=
  c3_amended stNoJoinDate mockLLMClient "Tell me about EMP7"
    ⟨35, "Low", ["Employee data found", "Brief query"]⟩ (by
      have hec : empContext stNoJoinDate "Tell me about EMP7" =
          some ("--- User Profile (EMP7) ---\nName: Carol\nDepartment: Ops\nLocation: Perth\nJoining Date: NaT\nLeaves Taken: 0 records\nAttendance Days: 0\n",
            "Employee DB: EMP7") := by
        decide
      have hs : searchPolicies stNoJoinDate "Tell me about EMP7" 3 mockLLMClient = [] := rfl
      have hx : extractEmpId "Tell me about EMP7" = some "EMP7" := by decide
      rw [processQuery_confidence, hec, hs, hx]
      have hps : profileSeen
          ["--- User Profile (EMP7) ---\nName: Carol\nDepartment: Ops\nLocation: Perth\nJoining Date: NaT\nLeaves Taken: 0 records\nAttendance Days: 0\n"]
          = true := by
        decide
      have hwc : wordCount "Tell me about EMP7" = 4 := by decide
      simp [calcConfidence, confFactor1, confFactor2, confFactor3, confFactor4, hps, hwc]
      constructor
      · simp only [round1]
        rw [round_eq]
        norm_num [inf_eq_min, min_def]
      · norm_num)

/-- C3 (counterexample): query `"What about EMP9999"` against a state with
no employees and one policy chunk whose text contains `"User Profile"`:
the token matched but the profile was not built (the lookup errored), yet
the code awards 30 points — the pipeline returns score 50 where the
claim's factor description yields 10 + 15 + 5 + 0 = 30. -/
theorem c3_counterexample :
    extractEmpId "What about EMP9999" = some "EMP9999"
    ∧ getEmployeeInfo stProfileLeak "EMP9999" = .error "Employee EMP9999 not found"
    ∧ (processQuery stProfileLeak mockLLMClient "What about EMP9999").confidence.map
        Confidence.score = some 50
    ∧ wordCount "What about EMP9999" = 3
    ∧ specConfidenceScore true false 1 3 1 = 30
    ∧ ¬ ((50 : ℚ) = 30) := by
  have hx : extractEmpId "What about EMP9999" = some "EMP9999" := by decide
  have hinfo : getEmployeeInfo stProfileLeak "EMP9999"
      = .error "Employee EMP9999 not found" := rfl
  have hec : empContext stProfileLeak "What about EMP9999" = none := by
    simp [empContext, hx, hinfo]
  have hemb : ∀ dd ∈ stProfileLeak.store, dd.embedding = mockVec :=
    addDocuments_mock_embedding _ _ (fun dd h => absurd h (List.not_mem_nil dd))
  have hs : searchPolicies stProfileLeak "What about EMP9999" 3 mockLLMClient
      = [⟨"All User Profile records are confidential.", "handbook.pdf", 2, 0⟩] := by
    unfold searchPolicies
    rw [search_mock _ _ _ hemb]
    decide
  refine ⟨hx, hinfo, ?_, by decide, ?_, by norm_num⟩
  · rw [processQuery_confidence, hec, hs, hx]
    have hps : profileSeen
        [policyBlockOf [⟨"All User Profile records are confidential.", "handbook.pdf", 2, 0⟩]]
        = true := by
      decide
    have hwc : wordCount "What about EMP9999" = 3 := by decide
    simp [calcConfidence, confFactor1, confFactor2, confFactor3, confFactor4, hps, hwc]
    simp only [round1]
    rw [round_eq]
    norm_num [inf_eq_min, min_def]
  · unfold specConfidenceScore
    norm_num [min_def]

/-! ## C7 — loader cleaning rules -/

theorem noLeadWs_dropWhile (l : List Char) :
    noLeadWs (l.dropWhile isPyWhite) = true := by
  induction l with
  | nil => rfl
  | cons c t ih =>
    rw [List.dropWhile_cons]
    by_cases h : isPyWhite c = true
    · rw [if_pos h]
      exact ih
    · rw [if_neg h]
      simp [noLeadWs, h]

theorem noLeadWs_trail (l : List Char) (h : noLeadWs l = true) :
    noLeadWs ((l.reverse.dropWhile isPyWhite).reverse) = true := by
  have hdec : l = (l.reverse.dropWhile isPyWhite).reverse
      ++ (l.reverse.takeWhile isPyWhite).reverse := by
    conv_lhs =>
      rw [← List.reverse_reverse l,
        ← List.takeWhile_append_dropWhile (p := isPyWhite) (l := l.reverse)]
    rw [List.reverse_append]
  cases hx : (l.reverse.dropWhile isPyWhite).reverse with
  | nil => rfl
  | cons c t =>
    rw [hdec, hx, List.cons_append] at h
    simpa [noLeadWs] using h

theorem stripChars_ok (l : List Char) :
    noLeadWs (stripChars l) = true ∧ noLeadWs (stripChars l).reverse = true := by
  constructor
  · unfold stripChars
    exact noLeadWs_trail _ (noLeadWs_dropWhile l)
  · unfold stripChars
    rw [List.reverse_reverse]
    exact noLeadWs_dropWhile _

/-- C7 (counterexample): a leave row keeps its missing value after loading
(only whitespace is stripped), and an employee row with an unparseable
joining date ends with the string `"Unknown"` in the date column rather
than the absent-date sentinel — both contradicting the claim as stated. -/
theorem c7_counterexample :
    loadLeaves [[CellValue.str "  sick  ", CellValue.missing]]
      = [[CellValue.str "sick", CellValue.missing]]
    ∧ loadEmployees (fun _ => none) [⟨CellValue.str "not-a-date", []⟩]
      = [⟨CellValue.str "Unknown", []⟩]
    ∧ (CellValue.missing ≠ CellValue.str "Unknown") := by
  refine ⟨by decide, rfl, by decide⟩

/-- C7 (amended): every text field of every loaded table is
whitespace-stripped — the attendance `emp_id`, stamped from the JSON key
before cleaning, included — and a stripped string has no leading or
trailing whitespace; missing values are replaced by `"Unknown"` only in
the employee table — the leave and attendance tables keep them missing;
in the employee table the fill runs after date parsing, so an unparseable
joining date (coerced to the absent-date sentinel at parse time) ends as
the string `"Unknown"`; the attendance date column keeps the absent-date
sentinel for unparseable values. -/
theorem c7_amended :
    (∀ s : String, noLeadWs (stripStr s).data = true
      ∧ noLeadWs (stripStr s).data.reverse = true)
    ∧ (∀ (rows : List (List CellValue)) (i j : Nat) (c : CellValue), cellAt rows i j = some c
        → cellAt (loadLeaves rows) i j = some (cleanCell c))
    ∧ (∀ s : String, cleanCell (.str s) = .str (stripStr s))
    ∧ (cleanCell .missing = .missing)
    ∧ (∀ (parse : String → Option Date) (rows : List RawEmployeeRow) (i : Nat)
          (r : RawEmployeeRow), rows[i]? = some r →
          (loadEmployees parse rows)[i]? = some
            { joiningDate := fillCell (coerceDate parse r.joiningDateRaw),
              fields := r.fields.map (fun c => fillCell (cleanCell c)) })
    ∧ (fillCell .missing = .str "Unknown")
    ∧ (∀ (parse : String → Option Date) s, parse s = none
        → fillCell (coerceDate parse (.str s)) = .str "Unknown")
    ∧ (∀ (parse : String → Option Date) (src : List (String × List RawAttRec))
          (pr : String × List RawAttRec) (r : RawAttRec), pr ∈ src → r ∈ pr.2 →
        ({ empId := stripStr pr.1, date := coerceDate parse (cleanCell r.dateRaw),
           fields := r.fields.map cleanCell } : AttRow) ∈ loadAttendance parse src)
    ∧ (∀ (parse : String → Option Date) s, parse s = none
        → coerceDate parse (.str s) = .missing) := by
  refine ⟨?_, ?_, fun s => rfl, rfl, ?_, rfl, ?_, ?_, ?_⟩
  · intro s
    exact stripChars_ok s.data
  · intro rows i j c h
    unfold cellAt at h ⊢
    rcases hrow : rows[i]? with - | r
    · rw [hrow] at h
      exact absurd h (by simp)
    · rw [hrow] at h
      have h' : r[j]? = some c := h
      unfold loadLeaves
      rw [List.getElem?_map, hrow]
      show (r.map cleanCell)[j]? = some (cleanCell c)
      rw [List.getElem?_map, h']
      rfl
  · intro parse rows i r h
    unfold loadEmployees
    rw [List.getElem?_map, h]
    rfl
  · intro parse s h
    simp [coerceDate, h, fillCell]
  · intro parse src pr r hpr hr
    unfold loadAttendance
    rw [List.mem_flatten]
    refine ⟨pr.2.map (fun rr =>
      { empId := stripStr pr.1, date := coerceDate parse (cleanCell rr.dateRaw),
        fields := rr.fields.map cleanCell : AttRow }), ?_, ?_⟩
    · refine List.mem_map.mpr ⟨pr, hpr, rfl⟩
    · exact List.mem_map.mpr ⟨r, hr, rfl⟩
  · intro parse s h
    simp [coerceDate, h]

/-- C7 (witness): the amended theorem applied at one-row tables — a leave
cell keeps `missing`, an employee row fills the unparseable date with
`"Unknown"`, and an attendance row keeps the absent-date sentinel. -/
theorem c7_witness :
    cellAt (loadLeaves [[CellValue.str " a ", CellValue.missing]]) 0 1
        = some (cleanCell CellValue.missing)
    ∧ (loadEmployees (fun _ => none) [⟨CellValue.str "x", [CellValue.missing]⟩])[0]? = some
        { joiningDate := fillCell (coerceDate (fun _ => none) (CellValue.str "x")),
          fields := [CellValue.missing].map (fun c => fillCell (cleanCell c)) }
    ∧ ({ empId := stripStr " E1 ", date := coerceDate (fun _ => none) (cleanCell (CellValue.str "bad")),
         fields := ([] : List CellValue).map cleanCell } : AttRow)
        ∈ loadAttendance (fun _ => none) [(" E1 ", [⟨CellValue.str "bad", []⟩])] :=
  ⟨c7_amended.2.1 [[CellValue.str " a ", CellValue.missing]] 0 1 CellValue.missing (by decide),
   c7_amended.2.2.2.2.1 (fun _ => none) [⟨CellValue.str "x", [CellValue.missing]⟩] 0
     ⟨CellValue.str "x", [CellValue.missing]⟩ (by decide),
   c7_amended.2.2.2.2.2.2.2.1 (fun _ => none) [(" E1 ", [⟨CellValue.str "bad", []⟩])]
     (" E1 ", [⟨CellValue.str "bad", []⟩]) ⟨CellValue.str "bad", []⟩ (by decide) (by decide)⟩

end HelixBot
